import Mathlib

/-!
Shallow embedding of the event platform's core (src/backend/routes/events.js
and src/backend/models/Event.js).

Modelling choices:
* Mongo ObjectIds (user ids) are `Nat`; timestamps (JS `Date` values) are `Int`
  (epoch milliseconds); comparison `new Date(event.date) < new Date()` becomes
  `ev.date < now`.
* An event record mirrors the mongoose schema in models/Event.js.
* The HTTP request bodies reaching the routes through multer are string
  fields; an absent or empty field is the falsy case of the JS truthiness
  checks (`if (!title || ...)`, `if (capacity) ...`), so request fields are
  `String` with `""` playing the role of absent/falsy.
* JS `parseInt` is embedded as `jsParseInt` (decimal with optional sign and
  leading-whitespace skipping; the hexadecimal `0x` prefix of the builtin is
  not modelled, no route feeds it hex input). `NaN` is `none`.
* JS `Date` parsing of the request's date string is an abstract parameter
  `pd : String → Option Int` (`none` = invalid date, which makes the mongoose
  cast at save() fail).
* `save()`-time mongoose validation (required fields, `trim: true` on title
  and location, `capacity: min 1`) is `validateEvent`.
* A single event's persistent state is `Option Event` (`none` = no such
  document); each route handler is a function from the request data and the
  current state to an outcome, plus (for the mutating routes) the committed
  state.
-/

namespace EventPlatform

/-- The mongoose event schema (src/backend/models/Event.js lines 3-42). -/
structure Event where
  title : String
  description : String
  date : Int
  location : String
  capacity : Int
  attendees : List Nat
  image : String
  creator : Nat
deriving Repr, DecidableEq

/-- The `trim: true` schema option (JS `String.prototype.trim`): strip
whitespace from both ends of the string. -/
def strTrim (s : String) : String :=
  String.mk
    (((s.toList.dropWhile (·.isWhitespace)).reverse.dropWhile
      (·.isWhitespace)).reverse)

/-- Mongoose save()-time validation of an event document: `required: true`
on title/description/location (with `trim: true` applied to title and
location before the check) and `min: 1` on capacity
(src/backend/models/Event.js lines 4-26). -/
def validateEvent (ev : Event) : Bool :=
  (ev.title != "") && (ev.description != "") && (ev.location != "")
    && (decide (1 ≤ ev.capacity))

/-- Value of a nonempty run of decimal digits; `none` when the run is empty
(the NaN case of parseInt). -/
def digitsVal (cs : List Char) : Option Nat :=
  let ds := cs.takeWhile (·.isDigit)
  if ds.isEmpty then none
  else some (ds.foldl (fun a c => 10 * a + (c.toNat - 48)) 0)

/-- JS `parseInt(s)` on decimal input: skip leading whitespace, optional
sign, then the longest prefix of decimal digits; `none` models NaN. -/
def jsParseInt (s : String) : Option Int :=
  match s.toList.dropWhile (·.isWhitespace) with
  | [] => none
  | c :: rest =>
    if c = '-' then (digitsVal rest).map (fun n => -(n : Int))
    else if c = '+' then (digitsVal rest).map (fun n => (n : Int))
    else (digitsVal (c :: rest)).map (fun n => (n : Int))

/-- Outcome of the RSVP route (src/backend/routes/events.js lines 171-233):
404 event not found, 400 past event, 400 already registered, 400 full,
or success. -/
inductive RsvpOutcome where
  | eventNotFound
  | eventEnded
  | alreadyRegistered
  | full
  | registered
deriving Repr, DecidableEq

/-- POST /:id/rsvp (src/backend/routes/events.js lines 171-233): look the
event up; reject when its date is strictly before now; reject when the user
is already an attendee (`attendees.some(a => a.toString() === req.user.id)`);
reject when `attendees.length >= capacity`; otherwise push the user and
commit. Returns the outcome and the committed state. -/
def rsvp (now : Int) (userId : Nat) (ev? : Option Event) :
    RsvpOutcome × Option Event :=
  match ev? with
  | none => (.eventNotFound, none)
  | some ev =>
    if ev.date < now then (.eventEnded, some ev)
    else if userId ∈ ev.attendees then (.alreadyRegistered, some ev)
    else if ev.capacity ≤ (ev.attendees.length : Int) then (.full, some ev)
    else (.registered, some { ev with attendees := ev.attendees ++ [userId] })

/-- Outcome of the cancel-RSVP route (src/backend/routes/events.js
lines 236-269). -/
inductive CancelOutcome where
  | eventNotFound
  | notRegistered
  | cancelled
deriving Repr, DecidableEq

/-- POST /:id/cancel-rsvp (src/backend/routes/events.js lines 236-269):
look the event up; `findIndex` of the user in attendees; `-1` (here `none`)
is rejected as not registered; otherwise `splice(i, 1)` (here `eraseIdx i`)
and commit. -/
def cancelRsvp (userId : Nat) (ev? : Option Event) :
    CancelOutcome × Option Event :=
  match ev? with
  | none => (.eventNotFound, none)
  | some ev =>
    match ev.attendees.findIdx? (fun a => a == userId) with
    | none => (.notRegistered, some ev)
    | some i => (.cancelled, some { ev with attendees := ev.attendees.eraseIdx i })

/-- Request body of POST / (event creation), as multer delivers it: string
fields, `""` = absent/falsy; `image` is the stored image path, `""` when no
file was uploaded (`req.file ? '/uploads/...' : ''`). -/
structure CreateReq where
  title : String
  description : String
  date : String
  location : String
  capacity : String
  image : String
deriving Repr, DecidableEq

/-- Result of POST /: 400 missing fields, 500 on a mongoose cast/validation
failure at save() (no document stored), or 201 with the created event. -/
inductive CreateResult where
  | missingFields
  | validationError
  | created (ev : Event)
deriving Repr, DecidableEq

/-- The document POST / builds (src/backend/routes/events.js lines 81-90):
the request's fields (title and location trimmed by the schema), the parsed
capacity `c`, the cast date `d`, an empty attendee list, the authenticated
creator and the image path. -/
def newEventDoc (req : CreateReq) (creator : Nat) (d c : Int) : Event :=
  { title := strTrim req.title
    description := req.description
    date := d
    location := strTrim req.location
    capacity := c
    attendees := []
    image := req.image
    creator := creator }

/-- POST / (src/backend/routes/events.js lines 72-103): reject when any of
title/description/date/location/capacity is falsy; build the document with
`capacity: parseInt(capacity)`, `attendees: []`, the authenticated creator
and the image path; save() casts the date string and validates the schema. -/
def createEvent (pd : String → Option Int) (req : CreateReq) (creator : Nat) :
    CreateResult :=
  if req.title = "" ∨ req.description = "" ∨ req.date = "" ∨
      req.location = "" ∨ req.capacity = "" then
    .missingFields
  else
    match jsParseInt req.capacity, pd req.date with
    | some c, some d =>
      if validateEvent (newEventDoc req creator d c) then
        .created (newEventDoc req creator d c)
      else .validationError
    | _, _ => .validationError

/-- Request body of PUT /:id (event update): string fields, `""` =
absent/falsy (each field is only written when truthy); `image` is the new
stored path when a file was uploaded, `""` otherwise. -/
structure UpdateReq where
  title : String
  description : String
  date : String
  location : String
  capacity : String
  image : String
deriving Repr, DecidableEq

/-- Result of PUT /:id: 404, 403 when the requester is not the creator,
500 on a save()-time cast/validation failure (nothing committed), or 200
with the committed event. -/
inductive UpdateResult where
  | notFound
  | forbidden
  | validationError
  | ok (ev : Event)
deriving Repr, DecidableEq

/-- The document PUT /:id commits (src/backend/routes/events.js
lines 122-127): each truthy request field overwrites the stored one (title
and location trimmed by the schema), `d` and `c` are the resolved date and
capacity, and the attendee list and creator are never touched. -/
def updatedEventDoc (req : UpdateReq) (ev : Event) (d c : Int) : Event :=
  { title := if req.title = "" then ev.title else strTrim req.title
    description :=
      if req.description = "" then ev.description else req.description
    date := d
    location := if req.location = "" then ev.location else strTrim req.location
    capacity := c
    attendees := ev.attendees
    image := if req.image = "" then ev.image else req.image
    creator := ev.creator }

/-- PUT /:id (src/backend/routes/events.js lines 106-138): look the event
up; 403 unless the requester is the creator; overwrite each truthy field
(`capacity: parseInt(capacity)`, trim on title/location per the schema);
attendees are never touched; save() casts and validates, committing only on
success. -/
def updateEvent (pd : String → Option Int) (req : UpdateReq) (userId : Nat)
    (ev? : Option Event) : UpdateResult :=
  match ev? with
  | none => .notFound
  | some ev =>
    if ev.creator ≠ userId then .forbidden
    else
      match (if req.date = "" then some ev.date else pd req.date),
            (if req.capacity = "" then some ev.capacity
             else jsParseInt req.capacity) with
      | some d, some c =>
        if validateEvent (updatedEventDoc req ev d c) then
          .ok (updatedEventDoc req ev d c)
        else .validationError
      | _, _ => .validationError

/-- Ordering used by every listing route: ascending by date
(`.sort({ date: 1 })`). -/
def dateLe (a b : Event) : Prop := a.date ≤ b.date

instance : DecidableRel dateLe := fun a b => inferInstanceAs (Decidable (a.date ≤ b.date))

instance : IsTotal Event dateLe := ⟨fun a b => Int.le_total a.date b.date⟩

instance : IsTrans Event dateLe := ⟨fun _ _ _ => Int.le_trans⟩

/-- GET / (src/backend/routes/events.js lines 43-52): `Event.find()` over
the whole collection, sorted by date ascending. -/
def listUpcoming (db : List Event) : List Event :=
  List.insertionSort dateLe db

/-- GET /user/created (src/backend/routes/events.js lines 272-281):
`Event.find({ creator: req.user.id })`, sorted by date ascending. -/
def listByCreator (userId : Nat) (db : List Event) : List Event :=
  List.insertionSort dateLe (db.filter (fun e => e.creator == userId))

/-- GET /user/attending (src/backend/routes/events.js lines 284-293):
`Event.find({ attendees: req.user.id })` (membership of the id in the
attendees array), sorted by date ascending. -/
def listByAttendee (userId : Nat) (db : List Event) : List Event :=
  List.insertionSort dateLe (db.filter (fun e => e.attendees.contains userId))

/-- Modelled from the spec: the register algorithm of §4.2, steps 1-5 in the
spec's order — not-found, then `EventEnded` when the start time is before
the attempt's timestamp, then `AlreadyRegistered`, then `Full` when
`|attendees| >= capacity`, else append and commit. -/
def registerSpec (now : Int) (userId : Nat) (ev? : Option Event) :
    RsvpOutcome × Option Event :=
  match ev? with
  | none => (.eventNotFound, none)
  | some ev =>
    if ev.date < now then (.eventEnded, some ev)
    else if userId ∈ ev.attendees then (.alreadyRegistered, some ev)
    else if (ev.attendees.length : Int) ≥ ev.capacity then (.full, some ev)
    else (.registered, some { ev with attendees := ev.attendees ++ [userId] })

/-- The data-model invariant of the spec (§3): the attendee count never
exceeds the capacity and no user id occurs twice among the attendees. -/
def eventInv (ev : Event) : Prop :=
  ((ev.attendees.length : Int) ≤ ev.capacity) ∧ ev.attendees.Nodup

instance (ev : Event) : Decidable (eventInv ev) :=
  inferInstanceAs (Decidable (_ ∧ _))

/-- A sample stored event: capacity 2, one attendee, future date. -/
def evA : Event :=
  { title := "Party", description := "Fun", date := 100, location := "Hall"
    capacity := 2, attendees := [3], image := "", creator := 7 }

/-- A sample full event: capacity 1, one attendee. -/
def evFull : Event :=
  { title := "Gig", description := "Loud", date := 100, location := "Club"
    capacity := 1, attendees := [3], image := "", creator := 7 }

/-- C2. The RSVP route applies its checks in the fixed order
ended → already-registered → full → append: it coincides with the spec's
step-ordered algorithm, and each outcome is characterised by exactly the
conjunction of checks the order dictates. -/
theorem rsvp_matches_spec_order (now : Int) (userId : Nat) (ev : Event) :
    rsvp now userId (some ev) = registerSpec now userId (some ev) ∧
    ((rsvp now userId (some ev)).1 = .eventEnded ↔ ev.date < now) ∧
    ((rsvp now userId (some ev)).1 = .alreadyRegistered ↔
      ¬ ev.date < now ∧ userId ∈ ev.attendees) ∧
    ((rsvp now userId (some ev)).1 = .full ↔
      ¬ ev.date < now ∧ userId ∉ ev.attendees ∧
        ev.capacity ≤ (ev.attendees.length : Int)) ∧
    ((rsvp now userId (some ev)).1 = .registered ↔
      ¬ ev.date < now ∧ userId ∉ ev.attendees ∧
        (ev.attendees.length : Int) < ev.capacity) ∧
    ((rsvp now userId (some ev)).1 = .registered →
      (rsvp now userId (some ev)).2 =
        some { ev with attendees := ev.attendees ++ [userId] }) := by
  unfold rsvp registerSpec
  by_cases h1 : ev.date < now
  · simp [h1]
  · by_cases h2 : userId ∈ ev.attendees
    · simp [h1, h2]
    · by_cases h3 : ev.capacity ≤ (ev.attendees.length : Int)
      · simp [h1, h2, h3, ge_iff_le]
      · simp [h1, h2, h3, ge_iff_le, Int.lt_iff_le_not_le, Int.le_of_not_le h3]

/-- Witness for C2: a concrete successful registration agrees with the
spec-ordered algorithm and commits the appended attendee list. -/
theorem rsvp_matches_spec_order_witness :
    rsvp 50 4 (some evA) = registerSpec 50 4 (some evA) ∧
    (rsvp 50 4 (some evA)).2 = some { evA with attendees := [3, 4] } :=
  ⟨(rsvp_matches_spec_order 50 4 evA).1,
   (rsvp_matches_spec_order 50 4 evA).2.2.2.2.2 (by decide)⟩

/-- C4. Whenever the RSVP route returns a non-success outcome the stored
state is unchanged, and likewise for the cancel route. -/
theorem failed_attempts_do_not_mutate :
    (∀ (now : Int) (userId : Nat) (ev? : Option Event),
      (rsvp now userId ev?).1 ≠ .registered → (rsvp now userId ev?).2 = ev?) ∧
    (∀ (userId : Nat) (ev? : Option Event),
      (cancelRsvp userId ev?).1 ≠ .cancelled → (cancelRsvp userId ev?).2 = ev?) := by
  constructor
  · intro now userId ev? h
    match ev? with
    | none => rfl
    | some ev =>
      unfold rsvp at *
      by_cases h1 : ev.date < now
      · simp [h1]
      · by_cases h2 : userId ∈ ev.attendees
        · simp [h1, h2]
        · by_cases h3 : ev.capacity ≤ (ev.attendees.length : Int)
          · simp [h1, h2, h3]
          · simp [h1, h2, h3] at h
  · intro userId ev? h
    match ev? with
    | none => rfl
    | some ev =>
      unfold cancelRsvp at *
      match hf : ev.attendees.findIdx? (fun a => a == userId) with
      | none => simp [hf]
      | some i => simp [hf] at h

/-- Witness for C4: a full event rejects a new user and a cancel by an
unregistered user rejects, both leaving the state untouched. -/
theorem failed_attempts_do_not_mutate_witness :
    (rsvp 50 4 (some evFull)).2 = some evFull ∧
    (cancelRsvp 4 (some evA)).2 = some evA :=
  ⟨failed_attempts_do_not_mutate.1 50 4 (some evFull) (by decide),
   failed_attempts_do_not_mutate.2 4 (some evA) (by decide)⟩

/-- C5. Registering twice in immediate succession for a not-yet-registered
user of a future event with spare room yields Registered then
AlreadyRegistered, the attendee count grows by exactly one, and the second
call commits nothing. -/
theorem rsvp_twice_idempotent (now : Int) (userId : Nat) (ev : Event)
    (h1 : ¬ ev.date < now) (h2 : userId ∉ ev.attendees)
    (h3 : (ev.attendees.length : Int) < ev.capacity) :
    ∃ ev', rsvp now userId (some ev) = (.registered, some ev') ∧
      rsvp now userId (some ev') = (.alreadyRegistered, some ev') ∧
      ev'.attendees.length = ev.attendees.length + 1 := by
  refine ⟨{ ev with attendees := ev.attendees ++ [userId] }, ?_, ?_, by simp⟩
  · unfold rsvp
    simp [h1, h2, Int.not_le.mpr h3]
  · unfold rsvp
    simp [h1]

/-- Witness for C5: the concrete sample event admits user 4 once and
rejects the immediate retry, with the count going from 1 to 2. -/
theorem rsvp_twice_idempotent_witness :
    ∃ ev', rsvp 50 4 (some evA) = (.registered, some ev') ∧
      rsvp 50 4 (some ev') = (.alreadyRegistered, some ev') ∧
      ev'.attendees.length = evA.attendees.length + 1 :=
  rsvp_twice_idempotent 50 4 evA (by decide) (by decide) (by decide)

/-- The cancel route's `findIndex` + `splice(i, 1)` pair removes exactly the
first occurrence: when the user is present, `findIdx?` returns the
`findIdx`, and erasing at that index is `List.erase`. -/
theorem findIdx_eraseIdx_of_mem (userId : Nat) (l : List Nat) (h : userId ∈ l) :
    l.findIdx? (fun a => a == userId) = some (l.findIdx (fun a => a == userId)) ∧
    l.eraseIdx (l.findIdx (fun a => a == userId)) = l.erase userId := by
  constructor
  · exact List.findIdx?_eq_some_of_exists ⟨userId, h, by simp⟩
  · induction l with
    | nil => cases h
    | cons a l ih =>
      by_cases ha : a = userId
      · subst ha
        simp [List.findIdx_cons, List.erase_cons]
      · rcases List.mem_cons.mp h with h' | h'
        · exact absurd h'.symm ha
        · have hb : (a == userId) = false := by simp [ha]
          simp only [List.findIdx_cons, hb, cond_false, List.eraseIdx_cons_succ,
            List.erase_cons, List.cons.injEq, true_and, Bool.false_eq_true,
            if_false]
          exact ih h'

/-- C6. The cancel route: not-found on a missing event; when the user is
registered it removes exactly one occurrence (the first) and reports
Cancelled; otherwise NotRegistered; and the outcome and resulting attendee
list never depend on the event's date. -/
theorem cancel_rsvp_correct (userId : Nat) (ev : Event) :
    cancelRsvp userId none = (.eventNotFound, none) ∧
    (userId ∈ ev.attendees →
      cancelRsvp userId (some ev) =
        (.cancelled, some { ev with attendees := ev.attendees.erase userId }) ∧
      (ev.attendees.erase userId).count userId + 1 = ev.attendees.count userId) ∧
    (userId ∉ ev.attendees →
      cancelRsvp userId (some ev) = (.notRegistered, some ev)) ∧
    (∀ d : Int,
      (cancelRsvp userId (some { ev with date := d })).1 =
        (cancelRsvp userId (some ev)).1 ∧
      (cancelRsvp userId (some { ev with date := d })).2.map Event.attendees =
        (cancelRsvp userId (some ev)).2.map Event.attendees) := by
  refine ⟨rfl, ?_, ?_, ?_⟩
  · intro h
    obtain ⟨hf, he⟩ := findIdx_eraseIdx_of_mem userId ev.attendees h
    constructor
    · simp only [cancelRsvp, hf, he]
    · have hpos : 0 < ev.attendees.count userId := List.count_pos_iff.mpr h
      rw [List.count_erase_self]
      omega
  · intro h
    have hf : ev.attendees.findIdx? (fun a => a == userId) = none := by
      rw [List.findIdx?_eq_none_iff]
      intro x hx
      simp only [beq_eq_false_iff_ne, ne_eq]
      exact fun hxu => h (hxu ▸ hx)
    simp only [cancelRsvp, hf]
  · intro d
    match hf : ev.attendees.findIdx? (fun a => a == userId) with
    | none => simp [cancelRsvp, hf]
    | some i => simp [cancelRsvp, hf]

/-- Witness for C6: cancelling the registered user 3 removes it, and
cancelling the unregistered user 4 changes nothing. -/
theorem cancel_rsvp_correct_witness :
    cancelRsvp 3 (some evA) = (.cancelled, some { evA with attendees := [] }) ∧
    cancelRsvp 4 (some evA) = (.notRegistered, some evA) := by
  refine ⟨?_, (cancel_rsvp_correct 4 evA).2.2.1 (by decide)⟩
  have h := ((cancel_rsvp_correct 3 evA).2.1 (by decide)).1
  simpa using h

/-- C9. A successful RSVP appends exactly the one new user id and changes
no other field; a successful cancel shrinks the attendee list by exactly
one element and changes no other field. -/
theorem mutations_touch_only_attendees (now : Int) (userId : Nat) (ev ev' : Event) :
    (rsvp now userId (some ev) = (.registered, some ev') →
      ev'.attendees = ev.attendees ++ [userId] ∧
      ev'.title = ev.title ∧ ev'.description = ev.description ∧
      ev'.date = ev.date ∧ ev'.location = ev.location ∧
      ev'.capacity = ev.capacity ∧ ev'.image = ev.image ∧
      ev'.creator = ev.creator) ∧
    (cancelRsvp userId (some ev) = (.cancelled, some ev') →
      ev'.attendees.length + 1 = ev.attendees.length ∧
      ev'.title = ev.title ∧ ev'.description = ev.description ∧
      ev'.date = ev.date ∧ ev'.location = ev.location ∧
      ev'.capacity = ev.capacity ∧ ev'.image = ev.image ∧
      ev'.creator = ev.creator) := by
  constructor
  · intro h
    unfold rsvp at h
    by_cases h1 : ev.date < now
    · simp [h1] at h
    · by_cases h2 : userId ∈ ev.attendees
      · simp [h1, h2] at h
      · by_cases h3 : ev.capacity ≤ (ev.attendees.length : Int)
        · simp [h1, h2, h3] at h
        · simp only [h1, h2, h3, if_neg, if_false, ite_false, Prod.mk.injEq,
            Option.some.injEq] at h
          rw [← h.2]
          simp
  · intro h
    unfold cancelRsvp at h
    match hf : ev.attendees.findIdx? (fun a => a == userId) with
    | none => simp [hf] at h
    | some i =>
      have hi : i < ev.attendees.length :=
        (List.findIdx?_eq_some_iff_findIdx_eq.mp hf).1
      simp only [hf, Prod.mk.injEq, Option.some.injEq] at h
      rw [← h.2]
      have hl : (ev.attendees.eraseIdx i).length + 1 = ev.attendees.length := by
        rw [List.length_eraseIdx, if_pos hi]
        omega
      exact ⟨hl, rfl, rfl, rfl, rfl, rfl, rfl, rfl⟩

/-- Witness for C9: the concrete RSVP of user 4 and cancel of user 3 on the
sample event touch only the attendee list. -/
theorem mutations_touch_only_attendees_witness :
    ({ evA with attendees := [3, 4] } : Event).attendees = evA.attendees ++ [4] ∧
    ({ evA with attendees := [] } : Event).attendees.length + 1 =
      evA.attendees.length :=
  ⟨((mutations_touch_only_attendees 50 4 evA { evA with attendees := [3, 4] }).1
      (by decide)).1,
   ((mutations_touch_only_attendees 50 3 evA { evA with attendees := [] }).2
      (by decide)).1⟩

/-- A stored event at full capacity: capacity 2, two attendees. -/
def evTwo : Event :=
  { title := "Party", description := "Fun", date := 100, location := "Hall"
    capacity := 2, attendees := [1, 2], image := "", creator := 7 }

/-- An update request by the creator that only shrinks the capacity to 1. -/
def shrinkReq : UpdateReq :=
  { title := "", description := "", date := "", location := ""
    capacity := "1", image := "" }

/-- C1 counterexample. Starting from a stored event that satisfies the
invariant (capacity 2, attendees [1, 2]), the creator's capacity edit to 1
commits, and the committed state has 2 attendees but capacity 1: the update
route never compares the new capacity with the current attendee count, so
the claimed invariant fails after this committed mutation. -/
theorem capacity_edit_breaks_invariant :
    eventInv evTwo ∧
    updateEvent (fun _ => none) shrinkReq 7 (some evTwo) =
      .ok { evTwo with capacity := 1 } ∧
    ¬ (({ evTwo with capacity := 1 } : Event).attendees.length : Int) ≤
        ({ evTwo with capacity := 1 } : Event).capacity := by
  refine ⟨by decide, by decide, by decide⟩

/-- C1 amended. Creation, RSVP and cancel each leave the committed event
satisfying the invariant (attendee count at most capacity, no duplicate
user id); a creator metadata update leaves the attendee list untouched
(hence duplicate-free) and re-validates capacity >= 1, but does not
re-check the attendee count against an edited capacity. -/
theorem committed_mutations_invariant :
    (∀ (pd : String → Option Int) (req : CreateReq) (u : Nat) (ev : Event),
      createEvent pd req u = .created ev → eventInv ev) ∧
    (∀ (now : Int) (userId : Nat) (ev : Event) (o : RsvpOutcome) (ev' : Event),
      eventInv ev → rsvp now userId (some ev) = (o, some ev') → eventInv ev') ∧
    (∀ (userId : Nat) (ev : Event) (o : CancelOutcome) (ev' : Event),
      eventInv ev → cancelRsvp userId (some ev) = (o, some ev') → eventInv ev') ∧
    (∀ (pd : String → Option Int) (req : UpdateReq) (u : Nat) (ev ev' : Event),
      eventInv ev → updateEvent pd req u (some ev) = .ok ev' →
      ev'.attendees = ev.attendees ∧ ev'.attendees.Nodup ∧ 1 ≤ ev'.capacity) := by
  refine ⟨?_, ?_, ?_, ?_⟩
  · intro pd req u ev h
    unfold createEvent at h
    by_cases h0 : req.title = "" ∨ req.description = "" ∨ req.date = "" ∨
        req.location = "" ∨ req.capacity = ""
    · rw [if_pos h0] at h
      simp at h
    · rw [if_neg h0] at h
      rcases hcap : jsParseInt req.capacity with _ | c <;>
        simp only [hcap] at h
      · simp at h
      · rcases hdate : pd req.date with _ | d <;> simp only [hdate] at h
        · simp at h
        · by_cases hv : validateEvent (newEventDoc req u d c)
          · rw [if_pos hv] at h
            cases h
            have hc : 1 ≤ c := by
              simp only [validateEvent, newEventDoc, Bool.and_eq_true,
                decide_eq_true_eq] at hv
              exact hv.2
            exact ⟨by simp only [newEventDoc, List.length_nil, Int.ofNat_zero,
              Nat.cast_zero]; omega, by simp [newEventDoc]⟩
          · rw [if_neg hv] at h
            simp at h
  · intro now userId ev o ev' hinv h
    have h' : (if ev.date < now then ((.eventEnded : RsvpOutcome), some ev)
        else if userId ∈ ev.attendees then (.alreadyRegistered, some ev)
        else if ev.capacity ≤ (ev.attendees.length : Int) then (.full, some ev)
        else (.registered,
          some { ev with attendees := ev.attendees ++ [userId] })) =
        (o, some ev') := h
    by_cases h1 : ev.date < now
    · simp only [if_pos h1, Prod.mk.injEq, Option.some.injEq] at h'
      exact h'.2 ▸ hinv
    · rw [if_neg h1] at h'
      by_cases h2 : userId ∈ ev.attendees
      · simp only [if_pos h2, Prod.mk.injEq, Option.some.injEq] at h'
        exact h'.2 ▸ hinv
      · rw [if_neg h2] at h'
        by_cases h3 : ev.capacity ≤ (ev.attendees.length : Int)
        · simp only [if_pos h3, Prod.mk.injEq, Option.some.injEq] at h'
          exact h'.2 ▸ hinv
        · simp only [if_neg h3, Prod.mk.injEq, Option.some.injEq] at h'
          rw [← h'.2]
          have hlt := Int.not_le.mp h3
          constructor
          · simp only [List.length_append, List.length_cons, List.length_nil]
            push_cast
            omega
          · simp only [List.nodup_append, List.disjoint_singleton]
            exact ⟨hinv.2, List.nodup_singleton userId, h2⟩
  · intro userId ev o ev' hinv h
    unfold cancelRsvp at h
    match hf : ev.attendees.findIdx? (fun a => a == userId) with
    | none =>
      simp only [hf, Prod.mk.injEq, Option.some.injEq] at h
      exact h.2 ▸ hinv
    | some i =>
      simp only [hf, Prod.mk.injEq, Option.some.injEq] at h
      rw [← h.2]
      have hsub := List.eraseIdx_sublist ev.attendees i
      constructor
      · have hlen : (ev.attendees.eraseIdx i).length ≤ ev.attendees.length :=
          hsub.length_le
        have h1 := hinv.1
        have h2 : ((ev.attendees.eraseIdx i).length : Int) ≤
            (ev.attendees.length : Int) := Int.ofNat_le.mpr hlen
        exact le_trans h2 h1
      · exact hinv.2.sublist hsub
  · intro pd req u ev ev' hinv h
    have h' : (if ev.creator ≠ u then (.forbidden : UpdateResult)
        else match (if req.date = "" then some ev.date else pd req.date),
            (if req.capacity = "" then some ev.capacity
             else jsParseInt req.capacity) with
          | some d, some c =>
            if validateEvent (updatedEventDoc req ev d c) then
              .ok (updatedEventDoc req ev d c)
            else .validationError
          | _, _ => .validationError) = .ok ev' := h
    by_cases hcr : ev.creator ≠ u
    · rw [if_pos hcr] at h'
      simp at h'
    · rw [if_neg hcr] at h'
      rcases hd : (if req.date = "" then some ev.date else pd req.date)
          with _ | d <;> simp only [hd] at h'
      · simp at h'
      · rcases hc : (if req.capacity = "" then some ev.capacity
            else jsParseInt req.capacity) with _ | c <;> simp only [hc] at h'
        · simp at h'
        · by_cases hv : validateEvent (updatedEventDoc req ev d c)
          · rw [if_pos hv] at h'
            cases h'
            refine ⟨rfl, hinv.2, ?_⟩
            simp only [validateEvent, Bool.and_eq_true, decide_eq_true_eq] at hv
            exact hv.2
          · rw [if_neg hv] at h'
            simp at h'

/-- Witness for the amended C1: a concrete successful RSVP against the
sample event commits a state satisfying the invariant. -/
theorem committed_mutations_invariant_witness :
    eventInv { evA with attendees := [3, 4] } :=
  committed_mutations_invariant.2.1 50 4 evA .registered
    { evA with attendees := [3, 4] } (by decide) (by decide)

/-- C7. Event creation: when the supplied capacity parses to a value below
1 no event is ever created (the schema's `min: 1` rejects the save), and
when all required fields are present and the capacity parses to at least 1
the created event carries an empty attendee list and the parsed capacity. -/
theorem create_event_capacity_rule :
    (∀ (pd : String → Option Int) (req : CreateReq) (u : Nat) (c : Int),
      jsParseInt req.capacity = some c → c < 1 →
      ∀ ev, createEvent pd req u ≠ .created ev) ∧
    (∀ (pd : String → Option Int) (req : CreateReq) (u : Nat) (c d : Int),
      strTrim req.title ≠ "" → req.description ≠ "" →
      strTrim req.location ≠ "" →
      req.date ≠ "" → jsParseInt req.capacity = some c → 1 ≤ c →
      pd req.date = some d →
      createEvent pd req u = .created (newEventDoc req u d c) ∧
      (newEventDoc req u d c).attendees = [] ∧
      (newEventDoc req u d c).capacity = c) := by
  constructor
  · intro pd req u c hcap hlt ev h
    unfold createEvent at h
    by_cases h0 : req.title = "" ∨ req.description = "" ∨ req.date = "" ∨
        req.location = "" ∨ req.capacity = ""
    · rw [if_pos h0] at h
      simp at h
    · rw [if_neg h0] at h
      simp only [hcap] at h
      rcases hdate : pd req.date with _ | d <;> simp only [hdate] at h
      · simp at h
      · have hv : validateEvent (newEventDoc req u d c) = false := by
          simp only [validateEvent, newEventDoc, Bool.and_eq_false_iff]
          right
          simp only [decide_eq_false_iff_not]
          omega
        rw [hv] at h
        simp at h
  · intro pd req u c d htitle hdesc hloc hdate hcap hge hpd
    have htitle' : req.title ≠ "" := by
      intro he
      apply htitle
      rw [he]
      rfl
    have hloc' : req.location ≠ "" := by
      intro he
      apply hloc
      rw [he]
      rfl
    have hcapne : req.capacity ≠ "" := by
      intro he
      rw [he] at hcap
      simp [jsParseInt] at hcap
    refine ⟨?_, rfl, rfl⟩
    unfold createEvent
    rw [if_neg (by simp [htitle', hdesc, hdate, hloc', hcapne])]
    simp only [hcap, hpd]
    rw [if_pos]
    simp only [validateEvent, newEventDoc, Bool.and_eq_true, bne_iff_ne,
      ne_eq, decide_eq_true_eq]
    exact ⟨⟨⟨htitle, hdesc⟩, hloc⟩, hge⟩

/-- The creation request with capacity "0": rejected at save() by min 1. -/
def reqZeroCap : CreateReq :=
  { title := "Party", description := "Fun", date := "2030-01-01"
    location := "Hall", capacity := "0", image := "" }

/-- The creation request with capacity "2": accepted. -/
def reqGoodCap : CreateReq :=
  { title := "Party", description := "Fun", date := "2030-01-01"
    location := "Hall", capacity := "2", image := "" }

/-- Witness for C7: a concrete capacity-0 request creates nothing, and a
concrete capacity-2 request creates the event with no attendees. -/
theorem create_event_capacity_rule_witness :
    (∀ ev, createEvent (fun _ => some 200) reqZeroCap 7 ≠ .created ev) ∧
    createEvent (fun _ => some 200) reqGoodCap 7 =
      .created (newEventDoc reqGoodCap 7 200 2) :=
  ⟨create_event_capacity_rule.1 (fun _ => some 200) reqZeroCap 7 0
      (by decide) (by decide),
   (create_event_capacity_rule.2 (fun _ => some 200) reqGoodCap 7 2 200
      (by decide) (by decide) (by decide) (by decide) (by decide) (by decide)
      (by decide)).1⟩

/-- C8. Every listing route returns a date-ascending reordering of exactly
the matching stored events: all events for the main listing, the events
with the given creator, and the events whose attendee list contains the
given user. -/
theorem listings_sorted_and_exact (db : List Event) (userId : Nat) :
    List.Sorted dateLe (listUpcoming db) ∧
    (listUpcoming db).Perm db ∧
    List.Sorted dateLe (listByCreator userId db) ∧
    (listByCreator userId db).Perm
      (db.filter (fun e => e.creator == userId)) ∧
    (∀ e, e ∈ listByCreator userId db ↔ e ∈ db ∧ e.creator = userId) ∧
    List.Sorted dateLe (listByAttendee userId db) ∧
    (listByAttendee userId db).Perm
      (db.filter (fun e => e.attendees.contains userId)) ∧
    (∀ e, e ∈ listByAttendee userId db ↔ e ∈ db ∧ userId ∈ e.attendees) := by
  refine ⟨List.sorted_insertionSort dateLe db,
    List.perm_insertionSort dateLe db,
    List.sorted_insertionSort dateLe _,
    List.perm_insertionSort dateLe _, ?_,
    List.sorted_insertionSort dateLe _,
    List.perm_insertionSort dateLe _, ?_⟩
  · intro e
    rw [listByCreator, (List.perm_insertionSort dateLe _).mem_iff,
      List.mem_filter]
    simp
  · intro e
    rw [listByAttendee, (List.perm_insertionSort dateLe _).mem_iff,
      List.mem_filter]
    simp [List.contains]

/-- takeWhile over an append whose left part wholly satisfies the predicate
keeps the left part and continues into the right part. -/
theorem takeWhile_all_append (p : Char → Bool) (s t : List Char)
    (h : ∀ c ∈ s, p c = true) :
    (s ++ t).takeWhile p = s ++ t.takeWhile p := by
  induction s with
  | nil => simp
  | cons a s ih =>
    have ha := h a (List.mem_cons_self a s)
    simp only [List.cons_append, List.takeWhile_cons, ha, if_true]
    rw [ih (fun c hc => h c (List.mem_cons_of_mem a hc))]

/-- A digit is not whitespace. -/
theorem isDigit_not_isWhitespace (c : Char) (hc : c.isDigit = true) :
    c.isWhitespace = false := by
  rcases Bool.eq_false_or_eq_true c.isWhitespace with h' | h'
  · exfalso
    simp only [Char.isWhitespace, Bool.or_eq_true, decide_eq_true_eq] at h'
    rcases h' with ((h' | h') | h') | h' <;> rw [h'] at hc <;>
      exact absurd hc (by decide)
  · exact h'

/-- The digit-run value ignores everything from a decimal point on: for a
nonempty all-digit integer part `s`, `s ++ '.' :: t` has the same value as
`s`. -/
theorem digitsVal_append_dot (s t : List Char)
    (h : ∀ c ∈ s, c.isDigit = true) :
    digitsVal (s ++ '.' :: t) = digitsVal s := by
  unfold digitsVal
  have h1 : (s ++ '.' :: t).takeWhile (·.isDigit) = s := by
    rw [takeWhile_all_append _ s _ h, List.takeWhile_cons, if_neg (by decide),
      List.append_nil]
  have h2 : s.takeWhile (·.isDigit) = s := by
    have := takeWhile_all_append (·.isDigit) s [] h
    simpa using this
  rw [h1, h2]

/-- jsParseInt truncates a fractional numeric string toward zero: on a
nonempty all-digit integer part followed by a decimal point, it returns the
value of the integer part alone. -/
theorem jsParseInt_truncates (s t : List Char) (hne : s ≠ [])
    (h : ∀ c ∈ s, c.isDigit = true) :
    jsParseInt (String.mk (s ++ '.' :: t)) = jsParseInt (String.mk s) := by
  match s, hne with
  | c :: s', _ =>
    have hc : c.isDigit = true := h c (List.mem_cons_self c s')
    have hw : c.isWhitespace = false := isDigit_not_isWhitespace c hc
    have hminus : ¬ c = '-' := by
      intro he
      rw [he] at hc
      exact absurd hc (by decide)
    have hplus : ¬ c = '+' := by
      intro he
      rw [he] at hc
      exact absurd hc (by decide)
    have e1 : (String.mk ((c :: s') ++ '.' :: t)).toList.dropWhile
        (·.isWhitespace) = c :: (s' ++ '.' :: t) := by
      show ((c :: (s' ++ '.' :: t)).dropWhile (·.isWhitespace)) = _
      rw [List.dropWhile_cons, if_neg (by simp [hw])]
    have e2 : (String.mk (c :: s')).toList.dropWhile (·.isWhitespace) =
        c :: s' := by
      show ((c :: s').dropWhile (·.isWhitespace)) = _
      rw [List.dropWhile_cons, if_neg (by simp [hw])]
    unfold jsParseInt
    rw [e1, e2]
    simp only [if_neg hminus, if_neg hplus]
    rw [show (c :: (s' ++ '.' :: t)) = (c :: s') ++ '.' :: t from rfl,
      digitsVal_append_dot (c :: s') t h]

/-- The creation request with the fractional capacity "5.9". -/
def reqFracCap : CreateReq :=
  { title := "Party", description := "Fun", date := "2030-01-01"
    location := "Hall", capacity := "5.9", image := "" }

/-- The update request with the fractional capacity "5.9". -/
def updFracCap : UpdateReq :=
  { title := "", description := "", date := "", location := ""
    capacity := "5.9", image := "" }

/-- C10. Capacity strings go through parseInt, so a fractional input is
truncated toward zero rather than rejected or rounded: the general
truncation law, the concrete value parseInt("5.9") = 5, and the creation
and update routes storing capacity 5 for the input "5.9". -/
theorem capacity_parse_int_truncates :
    (∀ (s t : List Char), s ≠ [] → (∀ c ∈ s, c.isDigit = true) →
      jsParseInt (String.mk (s ++ '.' :: t)) = jsParseInt (String.mk s)) ∧
    jsParseInt "5.9" = some 5 ∧
    createEvent (fun _ => some 200) reqFracCap 7 =
      .created (newEventDoc reqFracCap 7 200 5) ∧
    (newEventDoc reqFracCap 7 200 5).capacity = 5 ∧
    updateEvent (fun _ => none) updFracCap 7 (some evTwo) =
      .ok { evTwo with capacity := 5 } :=
  ⟨jsParseInt_truncates, by decide, by decide, rfl, by decide⟩

/-- Witness for C10: the truncation law applied at the concrete integer
part "5" and fractional part "9". -/
theorem capacity_parse_int_truncates_witness :
    jsParseInt (String.mk (['5'] ++ '.' :: ['9'])) =
      jsParseInt (String.mk ['5']) :=
  capacity_parse_int_truncates.1 ['5'] ['9'] (by decide) (by decide)

end EventPlatform
